import Mathlib

/-!
Shallow embedding of the WQL binding engine (wmi.go) — the destination-shape
validator `checkMultiArg`, the record binder `loadEntity`, the result-set
driver `Query`, and the query synthesizer `CreateQuery` — together with the
coercion rules of the per-field switch, the `strconv.ParseInt` base-10 int64
parser and the `time.Parse "20060102150405.000000-0700"` fixed-width
timestamp parser that the binder calls.

Machine integers are modelled as `Int`/`Nat`; Go's `uint64(iv)` conversion is
`Int.emod iv (2 ^ 64)`. Strings are Lean `String`s; the Go code slices by
byte, which agrees with character indexing on the ASCII literals WMI
produces. OLE property bags are association lists from property name to a
tagged value; errors returned by the ole layer (transport failures) are
modelled as `Fetch.fail` / `Source.setupErr`.
-/

namespace GoWmi

set_option maxRecDepth 16384

/-- A tagged source value as produced by `prop.Value()` on an ole VARIANT:
64-bit signed integer, text, boolean, null (nil interface), or a value of
some other unsupported dynamic type. -/
inductive SrcVal
  | int64 (i : Int)
  | text (s : String)
  | boolean (b : Bool)
  | null
  | other
  deriving DecidableEq, Repr

/-- One source record (property bag): named-property lookup by string key.
A name that is absent models `oleutil.GetProperty` returning an error. -/
abbrev SrcRec := List (String × SrcVal)

/-- `oleutil.GetProperty`: look a property up by name; `none` models the
error return for a property the source record does not have. -/
def getProp (r : SrcRec) (n : String) : Option SrcVal :=
  (r.find? (fun p => p.1 == n)).map (fun p => p.2)

/-- The reflect kind of a destination field after unwrapping an optional
pointer: any signed integer width, any unsigned width, string, bool, the
struct type `time.Time`, some other struct type, or any other kind. -/
inductive GoKind
  | intK
  | uintK
  | stringK
  | boolK
  | timeK
  | otherStructK
  | otherK
  deriving DecidableEq, Repr

/-- One declared field of the destination struct type: its name, the reflect
kind of the (possibly pointer-wrapped) value, whether the field's type is a
pointer, and whether `CanSet()` holds at the point the code checks it. For a
pointer field the checked value is `reflect.New(...).Elem()`, which is
always settable. -/
structure FieldDecl where
  name : String
  kind : GoKind
  isPtr : Bool
  settable : Bool
  deriving DecidableEq, Repr

/-- The structured field-mismatch report `ErrFieldMismatch` (the
`StructType` member is not needed by any claim and is omitted). -/
structure FieldMismatch where
  fieldName : String
  reason : String
  deriving DecidableEq, Repr

/-- An error value as `Query` distinguishes them: the sentinel
`ErrInvalidEntityType`, a `*ErrFieldMismatch`, or any other ("hard")
error carried as a message. -/
inductive WmiErr
  | invalidEntity
  | mismatch (m : FieldMismatch)
  | hard (msg : String)
  deriving DecidableEq, Repr

/-- The result of parsing a WMI timestamp with layout
`20060102150405.000000-0700`: the broken-down time components and the fixed
zone offset in seconds east of UTC. -/
structure WmiTime where
  year : Nat
  month : Nat
  day : Nat
  hour : Nat
  minute : Nat
  second : Nat
  micro : Nat
  tzOffSec : Int
  deriving DecidableEq, Repr

/-- Value of a decimal digit character, `none` if not a digit. -/
def dVal (c : Char) : Option Nat :=
  if c.isDigit then some (c.toNat - 48) else none

/-- Two fixed decimal digits. -/
def d2 (a b : Char) : Option Nat := do
  let x ← dVal a
  let y ← dVal b
  pure (10 * x + y)

/-- Four fixed decimal digits. -/
def d4 (a b c d : Char) : Option Nat := do
  let x ← d2 a b
  let y ← d2 c d
  pure (100 * x + y)

/-- Six fixed decimal digits. -/
def d6 (a b c d e f : Char) : Option Nat := do
  let x ← d4 a b c d
  let y ← d2 e f
  pure (100 * x + y)

/-- Gregorian leap-year rule, as in Go's time package. -/
def isLeap (y : Nat) : Bool :=
  y % 4 == 0 && (y % 100 != 0 || y % 400 == 0)

/-- Days in a month, as Go's date validation uses it. -/
def daysIn (y m : Nat) : Nat :=
  if m == 2 then (if isLeap y then 29 else 28)
  else if m == 4 || m == 6 || m == 9 || m == 11 then 30
  else 31

/-- `time.Parse "20060102150405.000000-0700" s`: fixed-width parse of
exactly 26 characters — 14 date-time digits, a dot, 6 fraction digits, a
sign and 4 zone digits — with Go's range validation of month, day, hour,
minute and second. Returns `none` on any malformed input (a hard parse
error in the code). -/
def parseWmiTime (str : String) : Option WmiTime :=
  match str.toList with
  | [y1, y2, y3, y4, mo1, mo2, dd1, dd2, h1, h2, mi1, mi2, se1, se2, dot,
     f1, f2, f3, f4, f5, f6, sg, z1, z2, z3, z4] =>
    if dot = '.' ∧ (sg = '+' ∨ sg = '-') then
      match d4 y1 y2 y3 y4, d2 mo1 mo2, d2 dd1 dd2, d2 h1 h2, d2 mi1 mi2,
            d2 se1 se2, d6 f1 f2 f3 f4 f5 f6, d2 z1 z2, d2 z3 z4 with
      | some y, some mo, some dd, some hh, some mi, some se, some fr,
        some zh, some zm =>
        if 1 ≤ mo ∧ mo ≤ 12 ∧ 1 ≤ dd ∧ dd ≤ daysIn y mo ∧
           hh ≤ 23 ∧ mi ≤ 59 ∧ se ≤ 59 then
          some ⟨y, mo, dd, hh, mi, se, fr,
                (if sg = '-' then -1 else 1) * (zh * 3600 + zm * 60)⟩
        else none
      | _, _, _, _, _, _, _, _, _ => none
    else none
  | _ => none

/-- Digits of a base-10 numeral, most significant first, folded into a
`Nat`; `none` if any character is not a digit. -/
def digitsToNatAux : List Char → Nat → Option Nat
  | [], acc => some acc
  | c :: cs, acc =>
    match dVal c with
    | some d => digitsToNatAux cs (10 * acc + d)
    | none => none

/-- Unsigned core of `strconv.ParseInt`: a nonempty all-digit numeral. -/
def parseIntCore (cs : List Char) (neg : Bool) : Option Int :=
  match cs with
  | [] => none
  | _ =>
    match digitsToNatAux cs 0 with
    | none => none
    | some n =>
      let v : Int := if neg then -(n : Int) else (n : Int)
      if -(2 ^ 63) ≤ v ∧ v ≤ 2 ^ 63 - 1 then some v else none

/-- `strconv.ParseInt(s, 10, 64)`: optional sign, nonempty digits, value
within the signed 64-bit range; `none` models the error return. -/
def parseInt64 (str : String) : Option Int :=
  match str.toList with
  | '+' :: cs => parseIntCore cs false
  | '-' :: cs => parseIntCore cs true
  | cs => parseIntCore cs false

/-- Go's conversion `uint64(iv)` of a signed 64-bit value: two's-complement
reinterpretation, i.e. reduction mod `2 ^ 64`. -/
def toUint64 (i : Int) : Nat :=
  (Int.emod i (2 ^ 64)).toNat

/-- The value stored in one destination field before pointer wrapping:
the zero value, or a value written by one of the reflect setters. -/
inductive BaseVal
  | zero
  | int (i : Int)
  | uint (n : Nat)
  | str (s : String)
  | bool (b : Bool)
  | time (t : WmiTime)
  deriving DecidableEq, Repr

/-- The value held by one destination field: a plain value, or — for an
optional (pointer) field — either the nil pointer or a pointer to a value. -/
inductive FVal
  | plain (v : BaseVal)
  | ptr (v : Option BaseVal)
  deriving DecidableEq, Repr

/-- Wrap a written base value in the field's shape: pointer fields hold a
freshly allocated pointee (`f.Set(reflect.New(...))` ran before binding). -/
def wrap (fd : FieldDecl) (v : BaseVal) : FVal :=
  if fd.isPtr then .ptr (some v) else .plain v

/-- The zero value of a field never touched by the binder: nil for a
pointer field, the kind's zero value otherwise. -/
def zeroVal (fd : FieldDecl) : FVal :=
  if fd.isPtr then .ptr none else .plain .zero

/-- Outcome of binding one field inside `loadEntity`: either continue to
the next field (with the value written and an optional mismatch recorded
into `errFieldMismatch`), or return from `loadEntity` at once with an
error, the value written so far left in place. -/
inductive FieldStep
  | cont (v : FVal) (m : Option FieldMismatch)
  | abort (v : FVal) (e : WmiErr)
  deriving DecidableEq, Repr

/-- One iteration of the field loop of `loadEntity`: allocate through the
pointer if the field is optional, check `CanSet`, fetch the like-named
source property, and apply the coercion switch on the value's dynamic
kind. -/
def bindField (src : SrcRec) (fd : FieldDecl) : FieldStep :=
  if fd.isPtr || fd.settable then
    match getProp src fd.name with
    | none => .cont (wrap fd .zero) (some ⟨fd.name, "no such struct field"⟩)
    | some v =>
      match v with
      | .int64 iv =>
        match fd.kind with
        | .intK => .cont (wrap fd (.int iv)) none
        | .uintK => .cont (wrap fd (.uint (toUint64 iv))) none
        | _ => .abort (wrap fd .zero) (.mismatch ⟨fd.name, "not an integer class"⟩)
      | .text sv =>
        match fd.kind with
        | .stringK => .cont (wrap fd (.str sv)) none
        | .intK =>
          match parseInt64 sv with
          | some iv => .cont (wrap fd (.int iv)) none
          | none => .abort (wrap fd .zero) (.hard "strconv.ParseInt failure")
        | .uintK =>
          match parseInt64 sv with
          | some iv => .cont (wrap fd (.uint (toUint64 iv))) none
          | none => .abort (wrap fd .zero) (.hard "strconv.ParseInt failure")
        | .timeK =>
          match parseWmiTime (if sv.length == 25
              then sv.take 22 ++ "0" ++ sv.drop 22 else sv) with
          | some t => .cont (wrap fd (.time t)) none
          | none => .abort (wrap fd .zero) (.hard "time.Parse failure")
        | .otherStructK => .cont (wrap fd .zero) none
        | .boolK => .cont (wrap fd .zero) none
        | .otherK => .cont (wrap fd .zero) none
      | .boolean bv =>
        match fd.kind with
        | .boolK => .cont (wrap fd (.bool bv)) none
        | _ => .abort (wrap fd .zero) (.mismatch ⟨fd.name, "not a bool"⟩)
      | .null =>
        if fd.isPtr then .cont (.ptr (some .zero)) none
        else .abort (.plain .zero) (.mismatch ⟨fd.name, "unsupported type"⟩)
      | .other => .abort (wrap fd .zero) (.mismatch ⟨fd.name, "unsupported type"⟩)
  else
    .abort (wrap fd .zero) (.mismatch ⟨fd.name, "CanSet() is false"⟩)

/-- The field loop of `loadEntity`, carrying the `errFieldMismatch`
accumulator (last written mismatch wins). On an aborting field the record's
remaining fields keep their zero values and the error is returned; at the
end the accumulated mismatch (if any) is returned. The first component is
the final contents of the destination record's fields. -/
def loadFields (src : SrcRec) : List FieldDecl → Option FieldMismatch →
    List FVal × Option WmiErr
  | [], fm => ([], fm.map .mismatch)
  | fd :: rest, fm =>
    match bindField src fd with
    | .abort v e => (v :: rest.map zeroVal, some e)
    | .cont v m =>
      let r := loadFields src rest (match m with | some m' => some m' | none => fm)
      (v :: r.1, r.2)

/-- `loadEntity`: bind one source record into a freshly allocated
destination record; returns the bound field values and `none`, a
`.mismatch`, or a `.hard` error. -/
def loadEntity (decl : List FieldDecl) (src : SrcRec) :
    List FVal × Option WmiErr :=
  loadFields src decl none

/-- The contents of the record `loadEntity` produces. -/
def bindRec (decl : List FieldDecl) (src : SrcRec) : List FVal :=
  (loadEntity decl src).1

/-- A bound destination record as appended to the destination slice. -/
abbrev BoundRec := List FVal

/-- The result of `ItemIndex i` on the result set: a record handle, or a
transport failure. -/
inductive Fetch
  | ok (r : SrcRec)
  | fail (e : String)
  deriving DecidableEq, Repr

/-- The external source as `Query` observes it: an error from any of the
session-setup calls (`CreateObject`, `QueryInterface`, `ConnectServer`,
`ExecQuery`, `Count`), or a result set given by its per-position fetch
results (the list's length is the reported `Count`). -/
structure Source where
  setupErr : Option String
  items : List Fetch
  deriving DecidableEq, Repr

/-- The runtime type of the slice's element, as `checkMultiArg` walks it. -/
inductive ElemType
  | structT (decl : List FieldDecl)
  | ptrTo (e : ElemType)
  | otherT
  deriving DecidableEq, Repr

/-- The runtime type of the value the destination pointer points at. -/
inductive SliceArg
  | notSlice
  | slice (elem : ElemType)
  deriving DecidableEq, Repr

/-- The three categories `checkMultiArg` returns. -/
inductive multiArgType
  | invalid
  | structT
  | structPtr
  deriving DecidableEq, Repr

/-- `checkMultiArg`: classify the destination as `[]S`, `[]*S`, or
invalid, returning the struct type `S` when valid. -/
def checkMultiArg : SliceArg → multiArgType × Option (List FieldDecl)
  | .notSlice => (.invalid, none)
  | .slice et =>
    match et with
    | .structT d => (.structT, some d)
    | .ptrTo (.structT d) => (.structPtr, some d)
    | .ptrTo (.ptrTo _) => (.invalid, none)
    | .ptrTo .otherT => (.invalid, none)
    | .otherT => (.invalid, none)

/-- The destination argument of `Query`: not a pointer at all, a nil
pointer, or a non-nil pointer with the pointee's runtime type and the
slice's current contents. -/
inductive DstArg
  | notPtr
  | nilPtr
  | ptr (v : SliceArg) (init : List BoundRec)
  deriving DecidableEq, Repr

/-- The per-index loop of `Query`: fetch each record handle, bind it, and
append; a `*ErrFieldMismatch` from `loadEntity` is remembered (last wins)
and the record is still appended, any other error returns at once without
appending; a fetch failure returns at once. After the last index the
remembered mismatch (if any) is the result. -/
def queryLoop (decl : List FieldDecl) : List Fetch → List BoundRec →
    Option FieldMismatch → List BoundRec × Option WmiErr
  | [], dv, fm => (dv, fm.map .mismatch)
  | .fail e :: _, dv, _ => (dv, some (.hard e))
  | .ok r :: rest, dv, fm =>
    match loadEntity decl r with
    | (vals, none) => queryLoop decl rest (dv ++ [vals]) fm
    | (vals, some (.mismatch m)) => queryLoop decl rest (dv ++ [vals]) (some m)
    | (_, some (.hard e)) => (dv, some (.hard e))
    | (_, some .invalidEntity) => (dv, some .invalidEntity)

/-- `Query`: validate the destination's shape, then (only if valid) run the
session setup and the per-index loop. The returned pair is the final
contents of the destination slice and the error value (`none` = nil).
Whether the element category is by-value or by-reference does not change
the bound contents, only whether `ev.Elem()` or `ev` is appended. -/
def Query (dst : DstArg) (src : Source) : List BoundRec × Option WmiErr :=
  match dst with
  | .notPtr => ([], some .invalidEntity)
  | .nilPtr => ([], some .invalidEntity)
  | .ptr sl init =>
    match checkMultiArg sl with
    | (.invalid, _) => (init, some .invalidEntity)
    | (_, none) => (init, some .invalidEntity)
    | (_, some decl) =>
      match src.setupErr with
      | some e => (init, some (.hard e))
      | none => queryLoop decl src.items init none

/-- A Go type as `CreateQuery` inspects it (after `reflect.Indirect`). -/
inductive GoType
  | structT (tname : String) (fields : List String)
  | sliceT (elem : GoType)
  | ptrT (elem : GoType)
  | otherT
  deriving DecidableEq, Repr

/-- The element-type resolution step of `CreateQuery`: a slice resolves to
its element type, everything else resolves to itself. -/
def resolvedElem : GoType → GoType
  | .sliceT e => e
  | .structT n fs => .structT n fs
  | .ptrT e => .ptrT e
  | .otherT => .otherT

/-- `CreateQuery`: synthesize `SELECT <fields> FROM <TypeName> <cond>`
from the resolved struct type's field names in declaration order, the
optional condition appended verbatim after one space; empty string when the
resolved type is not a struct. -/
def CreateQuery (t : GoType) (cond : String) : String :=
  match resolvedElem t with
  | .structT tname fields =>
    "SELECT " ++ String.intercalate ", " fields ++ " FROM " ++ tname ++ " " ++ cond
  | _ => ""

/-- True when a `loadEntity` result lets the driver's loop continue:
no error, or a field mismatch (any other error aborts the loop). -/
def isSoft : Option WmiErr → Bool
  | none => true
  | some (.mismatch _) => true
  | some (.hard _) => false
  | some .invalidEntity => false

/-- One step of the driver's mismatch accumulation: a record whose binding
ends in a mismatch overwrites the accumulator, any other record leaves it. -/
def stepFM (decl : List FieldDecl) (a : Option FieldMismatch) (r : SrcRec) :
    Option FieldMismatch :=
  match (loadEntity decl r).2 with
  | some (.mismatch m) => some m
  | _ => a

/-- The mismatch a record's binding ends in, if any. -/
def recMismatch (decl : List FieldDecl) (r : SrcRec) : Option FieldMismatch :=
  match (loadEntity decl r).2 with
  | some (.mismatch m) => some m
  | _ => none

/-- The mismatch of the last record (in result-set order) whose binding
ends in a mismatch: later records take priority. -/
def lastMismatch (decl : List FieldDecl) : List SrcRec → Option FieldMismatch
  | [] => none
  | r :: rs =>
    match lastMismatch decl rs with
    | some m => some m
    | none => recMismatch decl r

theorem stepFM_eq (decl : List FieldDecl) (a : Option FieldMismatch) (r : SrcRec) :
    stepFM decl a r =
      match recMismatch decl r with
      | some m => some m
      | none => a := by
  unfold stepFM recMismatch
  rcases (loadEntity decl r).2 with _ | e
  · rfl
  · cases e <;> rfl

theorem foldl_stepFM (decl : List FieldDecl) (rs : List SrcRec) :
    ∀ a, rs.foldl (stepFM decl) a =
      match lastMismatch decl rs with
      | some m => some m
      | none => a := by
  induction rs with
  | nil => intro a; rfl
  | cons r rs ih =>
    intro a
    show rs.foldl (stepFM decl) (stepFM decl a r) = _
    rw [ih (stepFM decl a r), stepFM_eq]
    rcases h : lastMismatch decl rs with _ | m <;> simp [lastMismatch, h]

theorem lastMismatch_none (decl : List FieldDecl) (rs : List SrcRec)
    (h : ∀ r ∈ rs, (loadEntity decl r).2 = none) :
    lastMismatch decl rs = none := by
  induction rs with
  | nil => rfl
  | cons r rs ih =>
    have hr := h r (by simp)
    have hrest := ih (fun r' hr' => h r' (by simp [hr']))
    unfold lastMismatch
    rw [hrest]
    simp only [recMismatch, hr]

theorem lastMismatch_isSome (decl : List FieldDecl) (rs : List SrcRec)
    (h : ∃ r ∈ rs, ∃ m, (loadEntity decl r).2 = some (.mismatch m)) :
    ∃ m, lastMismatch decl rs = some m := by
  induction rs with
  | nil => simp at h
  | cons r rs ih =>
    rcases h with ⟨r', hr', m, hm⟩
    rcases List.mem_cons.mp hr' with rfl | hmem
    · unfold lastMismatch
      rcases hL : lastMismatch decl rs with _ | m'
      · exact ⟨m, by simp [recMismatch, hm]⟩
      · exact ⟨m', by simp⟩
    · obtain ⟨m', hm'⟩ := ih ⟨r', hmem, m, hm⟩
      exact ⟨m', by unfold lastMismatch; rw [hm']⟩

/-- Master lemma for the driver's loop: a run of records whose bindings are
all soft (no error, or a mismatch) is consumed by appending each bound
record in order and folding the mismatch accumulator, and the loop then
continues with the rest of the fetches. -/
theorem queryLoop_soft_append (decl : List FieldDecl) (rs : List SrcRec)
    (tf : List Fetch) :
    ∀ (dv : List BoundRec) (fm : Option FieldMismatch),
    (∀ r ∈ rs, isSoft (loadEntity decl r).2 = true) →
    queryLoop decl (rs.map Fetch.ok ++ tf) dv fm =
      queryLoop decl tf (dv ++ rs.map (bindRec decl)) (rs.foldl (stepFM decl) fm) := by
  induction rs with
  | nil => intro dv fm _; simp
  | cons r rs ih =>
    intro dv fm h
    have hr : isSoft (loadEntity decl r).2 = true := h r (by simp)
    have hrest : ∀ r' ∈ rs, isSoft (loadEntity decl r').2 = true :=
      fun r' hr' => h r' (by simp [hr'])
    rcases hload : loadEntity decl r with ⟨vals, res⟩
    rw [hload] at hr
    have hbind : bindRec decl r = vals := by simp [bindRec, hload]
    cases res with
    | none =>
      have hstep : stepFM decl fm r = fm := by
        unfold stepFM
        rw [hload]
      simp only [List.map_cons, List.cons_append, queryLoop, hload, List.append_eq]
      rw [ih (dv ++ [vals]) fm hrest, List.foldl_cons, hstep]
      simp [hbind]
    | some e =>
      cases e with
      | mismatch m =>
        have hstep : stepFM decl fm r = some m := by
          unfold stepFM
          rw [hload]
        simp only [List.map_cons, List.cons_append, queryLoop, hload, List.append_eq]
        rw [ih (dv ++ [vals]) (some m) hrest, List.foldl_cons, hstep]
        simp [hbind]
      | hard s => simp [isSoft] at hr
      | invalidEntity => simp [isSoft] at hr

/-- The loop only ever appends: whatever the fetches are, the slice's
contents on entry stay in place as a front segment of the result. -/
theorem queryLoop_extends (decl : List FieldDecl) :
    ∀ (fs : List Fetch) (dv : List BoundRec) (fm : Option FieldMismatch),
    ∃ tail, (queryLoop decl fs dv fm).1 = dv ++ tail := by
  intro fs
  induction fs with
  | nil => intro dv fm; exact ⟨[], by simp [queryLoop]⟩
  | cons f rest ih =>
    intro dv fm
    cases f with
    | fail e => exact ⟨[], by simp [queryLoop]⟩
    | ok r =>
      rcases hload : loadEntity decl r with ⟨vals, res⟩
      cases res with
      | none =>
        obtain ⟨t, ht⟩ := ih (dv ++ [vals]) fm
        refine ⟨vals :: t, ?_⟩
        simp only [queryLoop, hload]
        rw [ht]
        simp
      | some e =>
        cases e with
        | mismatch m =>
          obtain ⟨t, ht⟩ := ih (dv ++ [vals]) (some m)
          refine ⟨vals :: t, ?_⟩
          simp only [queryLoop, hload]
          rw [ht]
          simp
        | hard s => exact ⟨[], by simp [queryLoop, hload]⟩
        | invalidEntity => exact ⟨[], by simp [queryLoop, hload]⟩

/-- A valid destination pointer reduces `Query` to the per-index loop. -/
theorem query_valid_eq (decl : List FieldDecl) (init : List BoundRec) (fs : List Fetch) :
    Query (.ptr (.slice (.structT decl)) init) ⟨none, fs⟩ = queryLoop decl fs init none ∧
    Query (.ptr (.slice (.ptrTo (.structT decl))) init) ⟨none, fs⟩ = queryLoop decl fs init none :=
  ⟨rfl, rfl⟩

/-- C1: for a valid destination (slice of struct or slice of pointer to
struct) and a source result set of N well-formed records — ItemIndex never
fails and every binding ends without error — `Query` returns nil and the
destination holds exactly the N bound records appended in result-set
order after its initial contents. -/
theorem c1_query_ok (decl : List FieldDecl) (rs : List SrcRec) (init : List BoundRec)
    (hok : ∀ r ∈ rs, (loadEntity decl r).2 = none) :
    Query (.ptr (.slice (.structT decl)) init) ⟨none, rs.map Fetch.ok⟩
        = (init ++ rs.map (bindRec decl), none) ∧
    Query (.ptr (.slice (.ptrTo (.structT decl))) init) ⟨none, rs.map Fetch.ok⟩
        = (init ++ rs.map (bindRec decl), none) ∧
    (init ++ rs.map (bindRec decl)).length = init.length + rs.length := by
  have hsoft : ∀ r ∈ rs, isSoft (loadEntity decl r).2 = true := by
    intro r hr
    rw [hok r hr]
    rfl
  have hmain := queryLoop_soft_append decl rs [] init none hsoft
  rw [List.append_nil] at hmain
  have hfold : rs.foldl (stepFM decl) none = none := by
    rw [foldl_stepFM, lastMismatch_none decl rs hok]
  rw [hfold] at hmain
  refine ⟨?_, ?_, by simp⟩
  · rw [(query_valid_eq decl init (rs.map Fetch.ok)).1, hmain]
    rfl
  · rw [(query_valid_eq decl init (rs.map Fetch.ok)).2, hmain]
    rfl

/-- Witness for C1: two well-formed process records bind in order. -/
theorem c1_query_ok_witness :
    (∀ r ∈ ([[("Name", SrcVal.text "calc")], [("Name", SrcVal.text "cmd")]] : List SrcRec),
        (loadEntity [⟨"Name", GoKind.stringK, false, true⟩] r).2 = none) ∧
    Query (.ptr (.slice (.structT [⟨"Name", GoKind.stringK, false, true⟩])) [])
        ⟨none, ([[("Name", SrcVal.text "calc")], [("Name", SrcVal.text "cmd")]] : List SrcRec).map Fetch.ok⟩
      = ([[FVal.plain (BaseVal.str "calc")], [FVal.plain (BaseVal.str "cmd")]], none) :=
  ⟨by decide,
    (c1_query_ok [⟨"Name", GoKind.stringK, false, true⟩]
      [[("Name", SrcVal.text "calc")], [("Name", SrcVal.text "cmd")]] [] (by decide)).1.trans
      (by decide)⟩

/-- C2: when some records have field mismatches (for instance a
destination field with no like-named source property) but no hard error,
every record is still appended — the destination gets all N elements — and
`Query` returns a non-nil field-mismatch error determined only after the
whole set is consumed; a missing source property itself leaves the field
at its zero value, records the mismatch and continues to the next field. -/
theorem c2_query_mismatch_appends_all (decl : List FieldDecl) (rs : List SrcRec)
    (init : List BoundRec)
    (hsoft : ∀ r ∈ rs, isSoft (loadEntity decl r).2 = true) :
    (Query (.ptr (.slice (.structT decl)) init) ⟨none, rs.map Fetch.ok⟩).1
        = init ++ rs.map (bindRec decl) ∧
    ((∃ r ∈ rs, ∃ m, (loadEntity decl r).2 = some (.mismatch m)) →
        ∃ m, (Query (.ptr (.slice (.structT decl)) init) ⟨none, rs.map Fetch.ok⟩).2
            = some (WmiErr.mismatch m)) ∧
    (∀ (src : SrcRec) (fd : FieldDecl), (fd.isPtr || fd.settable) = true →
        getProp src fd.name = none →
        bindField src fd = .cont (wrap fd .zero) (some ⟨fd.name, "no such struct field"⟩)) := by
  have hmain := queryLoop_soft_append decl rs [] init none hsoft
  rw [List.append_nil] at hmain
  rw [(query_valid_eq decl init (rs.map Fetch.ok)).1, hmain]
  refine ⟨rfl, ?_, ?_⟩
  · intro hex
    obtain ⟨m', hm'⟩ := lastMismatch_isSome decl rs hex
    refine ⟨m', ?_⟩
    rw [foldl_stepFM, hm']
    rfl
  · intro src fd h1 h2
    simp [bindField, h1, h2]

/-- Witness for C2: the second record lacks the `Bogus` property; both
records are appended and the call surfaces the mismatch. -/
theorem c2_query_mismatch_witness :
    (∀ r ∈ ([[("Name", SrcVal.text "calc"), ("Bogus", SrcVal.text "b")],
             [("Name", SrcVal.text "cmd")]] : List SrcRec),
        isSoft (loadEntity [⟨"Name", GoKind.stringK, false, true⟩,
            ⟨"Bogus", GoKind.stringK, false, true⟩] r).2 = true) ∧
    ∃ m, (Query (.ptr (.slice (.structT [⟨"Name", GoKind.stringK, false, true⟩,
            ⟨"Bogus", GoKind.stringK, false, true⟩])) [])
        ⟨none, ([[("Name", SrcVal.text "calc"), ("Bogus", SrcVal.text "b")],
                 [("Name", SrcVal.text "cmd")]] : List SrcRec).map Fetch.ok⟩).2
      = some (WmiErr.mismatch m) :=
  ⟨by decide,
    (c2_query_mismatch_appends_all
        [⟨"Name", GoKind.stringK, false, true⟩, ⟨"Bogus", GoKind.stringK, false, true⟩]
        [[("Name", SrcVal.text "calc"), ("Bogus", SrcVal.text "b")],
         [("Name", SrcVal.text "cmd")]] [] (by decide)).2.1
      ⟨[("Name", SrcVal.text "cmd")], by decide,
        ⟨"Bogus", "no such struct field"⟩, by decide⟩⟩

/-- C3: for a destination that is not a non-nil pointer to a slice of
struct or of pointer to struct, `Query` returns the invalid-entity-type
sentinel at once; the result holds for every external source (no session
is opened, nothing is executed) and the destination is left unchanged. -/
theorem c3_query_invalid (sl : SliceArg) (init : List BoundRec) (src : Source)
    (h : (checkMultiArg sl).1 = .invalid) :
    Query (.ptr sl init) src = (init, some .invalidEntity) ∧
    Query .notPtr src = ([], some .invalidEntity) ∧
    Query .nilPtr src = ([], some .invalidEntity) := by
  refine ⟨?_, rfl, rfl⟩
  cases sl with
  | notSlice => rfl
  | slice et =>
    cases et with
    | structT d => simp [checkMultiArg] at h
    | ptrTo e =>
      cases e with
      | structT d => simp [checkMultiArg] at h
      | ptrTo e2 => rfl
      | otherT => rfl
    | otherT => rfl

/-- Witness for C3: a slice of a non-struct element is rejected with the
sentinel and the slice contents survive untouched. -/
theorem c3_query_invalid_witness :
    (checkMultiArg (.slice .otherT)).1 = .invalid ∧
    Query (.ptr (.slice .otherT) [[FVal.plain BaseVal.zero]]) ⟨none, [Fetch.ok []]⟩
      = ([[FVal.plain BaseVal.zero]], some .invalidEntity) :=
  ⟨by decide,
    (c3_query_invalid (.slice .otherT) [[FVal.plain BaseVal.zero]]
      ⟨none, [Fetch.ok []]⟩ (by decide)).1⟩

/-- C4: a transport failure fetching the record handle at position k stops
the loop at once: `Query` returns that error, positions after k (the
quantified `rest`) are never consulted, and the destination holds exactly
the k records appended before the failure. -/
theorem c4_query_hard_stops (decl : List FieldDecl) (rs : List SrcRec) (e : String)
    (rest : List Fetch) (init : List BoundRec)
    (hsoft : ∀ r ∈ rs, isSoft (loadEntity decl r).2 = true) :
    Query (.ptr (.slice (.structT decl)) init)
        ⟨none, rs.map Fetch.ok ++ Fetch.fail e :: rest⟩
      = (init ++ rs.map (bindRec decl), some (.hard e)) ∧
    (init ++ rs.map (bindRec decl)).length = init.length + rs.length := by
  have hmain := queryLoop_soft_append decl rs (Fetch.fail e :: rest) init none hsoft
  refine ⟨?_, by simp⟩
  rw [(query_valid_eq decl init (rs.map Fetch.ok ++ Fetch.fail e :: rest)).1, hmain]
  rfl

/-- Witness for C4: one good record, then a transport failure; the record
after the failure is never bound. -/
theorem c4_query_hard_stops_witness :
    (∀ r ∈ ([[("Name", SrcVal.text "calc")]] : List SrcRec),
        isSoft (loadEntity [⟨"Name", GoKind.stringK, false, true⟩] r).2 = true) ∧
    Query (.ptr (.slice (.structT [⟨"Name", GoKind.stringK, false, true⟩])) [])
        ⟨none, ([[("Name", SrcVal.text "calc")]] : List SrcRec).map Fetch.ok ++
          Fetch.fail "transport gone" :: [Fetch.ok [("Name", SrcVal.text "cmd")]]⟩
      = ([[FVal.plain (BaseVal.str "calc")]], some (.hard "transport gone")) :=
  ⟨by decide,
    ((c4_query_hard_stops [⟨"Name", GoKind.stringK, false, true⟩]
        [[("Name", SrcVal.text "calc")]] "transport gone"
        [Fetch.ok [("Name", SrcVal.text "cmd")]] [] (by decide)).1).trans (by decide)⟩

/-- C5 counterexample: two records, each missing a different destination
field — two mismatches of the same kind (`no such struct field`). `Query`
returns the second (later) one, not the first one observed: later
mismatches do replace earlier ones. -/
theorem c5_first_mismatch_cex :
    (Query (.ptr (.slice (.structT [⟨"A", GoKind.stringK, false, true⟩,
        ⟨"B", GoKind.stringK, false, true⟩])) [])
      ⟨none, [.ok [("B", SrcVal.text "x")], .ok [("A", SrcVal.text "y")]]⟩).2
      = some (.mismatch ⟨"B", "no such struct field"⟩) ∧
    (Query (.ptr (.slice (.structT [⟨"A", GoKind.stringK, false, true⟩,
        ⟨"B", GoKind.stringK, false, true⟩])) [])
      ⟨none, [.ok [("B", SrcVal.text "x")], .ok [("A", SrcVal.text "y")]]⟩).2
      ≠ some (.mismatch ⟨"A", "no such struct field"⟩) := by decide

/-- C5 amended: with field mismatches on any number of records and no hard
error, the single error `Query` returns is the LAST mismatch observed in
result-set order — each later mismatch replaces the earlier one in the
accumulator (and `none` when no record mismatched). -/
theorem c5_query_last_mismatch (decl : List FieldDecl) (rs : List SrcRec)
    (init : List BoundRec)
    (hsoft : ∀ r ∈ rs, isSoft (loadEntity decl r).2 = true) :
    (Query (.ptr (.slice (.structT decl)) init) ⟨none, rs.map Fetch.ok⟩).2
      = (lastMismatch decl rs).map WmiErr.mismatch := by
  have hmain := queryLoop_soft_append decl rs [] init none hsoft
  rw [List.append_nil] at hmain
  rw [(query_valid_eq decl init (rs.map Fetch.ok)).1, hmain, foldl_stepFM]
  rcases h : lastMismatch decl rs with _ | m <;> rfl

/-- Witness for C5 (amended): the later of two mismatching records is the
one reported. -/
theorem c5_query_last_mismatch_witness :
    (∀ r ∈ ([[("B", SrcVal.text "u")], [("A", SrcVal.text "v")]] : List SrcRec),
        isSoft (loadEntity [⟨"A", GoKind.stringK, false, true⟩,
            ⟨"B", GoKind.stringK, false, true⟩] r).2 = true) ∧
    (Query (.ptr (.slice (.structT [⟨"A", GoKind.stringK, false, true⟩,
        ⟨"B", GoKind.stringK, false, true⟩])) [])
      ⟨none, ([[("B", SrcVal.text "u")], [("A", SrcVal.text "v")]] : List SrcRec).map Fetch.ok⟩).2
      = (lastMismatch [⟨"A", GoKind.stringK, false, true⟩, ⟨"B", GoKind.stringK, false, true⟩]
          [[("B", SrcVal.text "u")], [("A", SrcVal.text "v")]]).map WmiErr.mismatch :=
  ⟨by decide,
    c5_query_last_mismatch
      [⟨"A", GoKind.stringK, false, true⟩, ⟨"B", GoKind.stringK, false, true⟩]
      [[("B", SrcVal.text "u")], [("A", SrcVal.text "v")]] [] (by decide)⟩

/-- C6 counterexample: with a non-settable first field the binder returns
at once, so the second field stays at its zero value even though its
source property is available — the binder does not continue to the next
field as claimed. -/
theorem c6_not_settable_cex :
    loadEntity [⟨"A", GoKind.stringK, false, false⟩, ⟨"B", GoKind.stringK, false, true⟩]
        [("A", SrcVal.text "x"), ("B", SrcVal.text "y")]
      = ([FVal.plain BaseVal.zero, FVal.plain BaseVal.zero],
         some (.mismatch ⟨"A", "CanSet() is false"⟩)) ∧
    (loadEntity [⟨"A", GoKind.stringK, false, false⟩, ⟨"B", GoKind.stringK, false, true⟩]
        [("A", SrcVal.text "x"), ("B", SrcVal.text "y")]).1
      ≠ [FVal.plain BaseVal.zero, FVal.plain (BaseVal.str "y")] := by decide

/-- C6 amended: a non-settable (non-pointer) destination field makes the
binder return the `CanSet() is false` mismatch immediately, aborting the
record — the remaining fields keep their zero values. Because the returned
error is a field mismatch, `Query` still appends the aborted record. -/
theorem c6_not_settable_aborts (src : SrcRec) (fd : FieldDecl) (rest : List FieldDecl)
    (fm : Option FieldMismatch) (h1 : fd.isPtr = false) (h2 : fd.settable = false) :
    bindField src fd = .abort (.plain .zero) (.mismatch ⟨fd.name, "CanSet() is false"⟩) ∧
    loadFields src (fd :: rest) fm
      = (FVal.plain BaseVal.zero :: rest.map zeroVal,
         some (.mismatch ⟨fd.name, "CanSet() is false"⟩)) := by
  have hb : bindField src fd
      = .abort (.plain .zero) (.mismatch ⟨fd.name, "CanSet() is false"⟩) := by
    simp [bindField, h1, h2, wrap]
  exact ⟨hb, by simp [loadFields, hb]⟩

/-- Witness for C6 (amended): the aborted record keeps the second field at
zero although the source offers a value for it. -/
theorem c6_not_settable_aborts_witness :
    (⟨"A", GoKind.stringK, false, false⟩ : FieldDecl).isPtr = false ∧
    (⟨"A", GoKind.stringK, false, false⟩ : FieldDecl).settable = false ∧
    loadFields [("A", SrcVal.text "q"), ("B", SrcVal.text "r")]
        (⟨"A", GoKind.stringK, false, false⟩ :: [⟨"B", GoKind.stringK, false, true⟩]) none
      = (FVal.plain BaseVal.zero :: [⟨"B", GoKind.stringK, false, true⟩].map zeroVal,
         some (.mismatch ⟨"A", "CanSet() is false"⟩)) :=
  ⟨by decide, by decide,
    (c6_not_settable_aborts [("A", SrcVal.text "q"), ("B", SrcVal.text "r")]
      ⟨"A", GoKind.stringK, false, false⟩ [⟨"B", GoKind.stringK, false, true⟩] none
      (by decide) (by decide)).2⟩

/-- C7 counterexample: a 25-character timestamp literal is NOT parsed
unmodified — the code inserts the `0` at offset 22 exactly when the length
is 25 and parsing the unmodified literal would fail — and a 24-character
literal is not padded at all but is a hard parse error. -/
theorem c7_time_pad_cex :
    bindField [("T", SrcVal.text "20231106133000.000000+060")]
        ⟨"T", GoKind.timeK, false, true⟩
      = .cont (.plain (.time ⟨2023, 11, 6, 13, 30, 0, 0, 3600⟩)) none ∧
    parseWmiTime "20231106133000.000000+060" = none ∧
    bindField [("T", SrcVal.text "20231106133000.00000+060")]
        ⟨"T", GoKind.timeK, false, true⟩
      = .abort (.plain .zero) (.hard "time.Parse failure") := by decide

/-- C7 amended: binding a text value into a timestamp field inserts a `0`
at offset 22 exactly when the literal is 25 characters long (one short of
the 26 the layout `20060102150405.000000-0700` requires) and then parses;
any other length (26 in particular) is parsed unmodified; a parse failure
is a hard error, and a hard error from binding makes `Query` return it at
once without appending the record. -/
theorem c7_time_pad (src : SrcRec) (n sv : String)
    (h : getProp src n = some (.text sv)) :
    (sv.length = 25 →
      loadEntity [⟨n, GoKind.timeK, false, true⟩] src
        = (match parseWmiTime (sv.take 22 ++ "0" ++ sv.drop 22) with
           | some t => ([FVal.plain (BaseVal.time t)], none)
           | none => ([FVal.plain BaseVal.zero], some (.hard "time.Parse failure")))) ∧
    (sv.length ≠ 25 →
      loadEntity [⟨n, GoKind.timeK, false, true⟩] src
        = (match parseWmiTime sv with
           | some t => ([FVal.plain (BaseVal.time t)], none)
           | none => ([FVal.plain BaseVal.zero], some (.hard "time.Parse failure")))) ∧
    (∀ (init : List BoundRec) (rest : List Fetch),
      loadEntity [⟨n, GoKind.timeK, false, true⟩] src
          = ([FVal.plain BaseVal.zero], some (.hard "time.Parse failure")) →
      Query (.ptr (.slice (.structT [⟨n, GoKind.timeK, false, true⟩])) init)
          ⟨none, Fetch.ok src :: rest⟩
        = (init, some (.hard "time.Parse failure"))) := by
  refine ⟨?_, ?_, ?_⟩
  · intro h25
    rcases hp : parseWmiTime (sv.take 22 ++ "0" ++ sv.drop 22) with _ | t <;>
      simp [loadEntity, loadFields, bindField, h, h25, hp, wrap]
  · intro hne
    have hif : (sv.length == 25) = false := by
      simp [hne]
    rcases hp : parseWmiTime sv with _ | t <;>
      simp [loadEntity, loadFields, bindField, h, hif, hp, wrap]
  · intro init rest hload
    rw [(query_valid_eq [⟨n, GoKind.timeK, false, true⟩] init (Fetch.ok src :: rest)).1]
    simp only [queryLoop, hload]

/-- Witness for C7 (amended): the canonical 25-character WMI literal binds
to the timestamp obtained from the padded 26-character literal. -/
theorem c7_time_pad_witness :
    getProp [("T", SrcVal.text "20231106133000.000000+060")] "T"
      = some (SrcVal.text "20231106133000.000000+060") ∧
    ("20231106133000.000000+060" : String).length = 25 ∧
    loadEntity [⟨"T", GoKind.timeK, false, true⟩]
        [("T", SrcVal.text "20231106133000.000000+060")]
      = ([FVal.plain (BaseVal.time ⟨2023, 11, 6, 13, 30, 0, 0, 3600⟩)], none) := by
  refine ⟨by decide, by decide, ?_⟩
  have h := (c7_time_pad [("T", SrcVal.text "20231106133000.000000+060")] "T"
      "20231106133000.000000+060" (by decide)).1 (by decide)
  exact h.trans (by decide)

/-- C8 counterexample: a null source value on a pointer field does not
leave the pointer nil — the binder allocated the pointee up front, so the
field holds a pointer to the zero value. -/
theorem c8_null_ptr_cex :
    loadEntity [⟨"P", GoKind.stringK, true, true⟩] [("P", SrcVal.null)]
      = ([FVal.ptr (some BaseVal.zero)], none) ∧
    (loadEntity [⟨"P", GoKind.stringK, true, true⟩] [("P", SrcVal.null)]).1
      ≠ [FVal.ptr none] := by decide

/-- C8 amended: a null source value on a pointer field records no mismatch
and continues, but the field does not stay nil: it holds the freshly
allocated pointer to the zero value that the binder installed before the
null check. -/
theorem c8_null_ptr_allocates (src : SrcRec) (fd : FieldDecl) (rest : List FieldDecl)
    (fm : Option FieldMismatch)
    (h1 : fd.isPtr = true) (h2 : getProp src fd.name = some .null) :
    bindField src fd = .cont (.ptr (some .zero)) none ∧
    loadFields src (fd :: rest) fm
      = (FVal.ptr (some BaseVal.zero) :: (loadFields src rest fm).1,
         (loadFields src rest fm).2) := by
  have hb : bindField src fd = .cont (.ptr (some .zero)) none := by
    simp [bindField, h1, h2]
  exact ⟨hb, by simp [loadFields, hb]⟩

/-- Witness for C8 (amended): a null on an optional string field. -/
theorem c8_null_ptr_allocates_witness :
    (⟨"P", GoKind.stringK, true, true⟩ : FieldDecl).isPtr = true ∧
    getProp [("P", SrcVal.null)] "P" = some SrcVal.null ∧
    bindField [("P", SrcVal.null)] ⟨"P", GoKind.stringK, true, true⟩
      = .cont (.ptr (some .zero)) none :=
  ⟨by decide, by decide,
    (c8_null_ptr_allocates [("P", SrcVal.null)] ⟨"P", GoKind.stringK, true, true⟩ [] none
      (by decide) (by decide)).1⟩

/-- C9: `CreateQuery` on the two-field `Win32_Process` record (given
directly or as a slice of it) with an empty condition yields exactly
`"SELECT Name, HandleCount FROM Win32_Process "`, fields in declaration
order and the condition appended verbatim after a space; every input whose
resolved type is not a struct yields the empty string. -/
theorem c9_create_query (t : GoType) (cond : String)
    (h : ∀ n fs, resolvedElem t ≠ .structT n fs) :
    CreateQuery (.structT "Win32_Process" ["Name", "HandleCount"]) ""
      = "SELECT Name, HandleCount FROM Win32_Process " ∧
    CreateQuery (.sliceT (.structT "Win32_Process" ["Name", "HandleCount"])) ""
      = "SELECT Name, HandleCount FROM Win32_Process " ∧
    CreateQuery t cond = "" := by
  refine ⟨by decide, by decide, ?_⟩
  unfold CreateQuery
  cases ht : resolvedElem t with
  | structT n fs => exact absurd ht (h n fs)
  | sliceT e => rfl
  | ptrT e => rfl
  | otherT => rfl

/-- Witness for C9: a pointer-to-struct input (not a slice) resolves to a
non-struct and synthesizes the empty string. -/
theorem c9_create_query_witness :
    (∀ n fs, resolvedElem (.ptrT (.structT "Win32_Process" ["Name"]))
        ≠ GoType.structT n fs) ∧
    CreateQuery (.ptrT (.structT "Win32_Process" ["Name"])) "WHERE x" = "" :=
  ⟨fun n fs hne => by simp [resolvedElem] at hne,
    (c9_create_query (.ptrT (.structT "Win32_Process" ["Name"])) "WHERE x"
      (fun n fs hne => by simp [resolvedElem] at hne)).2.2⟩

/-- C10: `Query` never removes or modifies elements already present in the
destination slice: on every outcome (nil, mismatch, setup failure, hard
error, even an invalid element type) the prior contents are a front
segment of the result and new records are only appended after them. -/
theorem c10_query_preserves (sl : SliceArg) (init : List BoundRec) (src : Source) :
    ∃ tail, (Query (.ptr sl init) src).1 = init ++ tail := by
  obtain ⟨se, items⟩ := src
  cases sl with
  | notSlice => exact ⟨[], (List.append_nil init).symm⟩
  | slice et =>
    cases et with
    | structT d =>
      cases se with
      | some e => exact ⟨[], (List.append_nil init).symm⟩
      | none =>
        obtain ⟨t, ht⟩ := queryLoop_extends d items init none
        exact ⟨t, ht⟩
    | ptrTo e =>
      cases e with
      | structT d =>
        cases se with
        | some e2 => exact ⟨[], (List.append_nil init).symm⟩
        | none =>
          obtain ⟨t, ht⟩ := queryLoop_extends d items init none
          exact ⟨t, ht⟩
      | ptrTo e2 => exact ⟨[], (List.append_nil init).symm⟩
      | otherT => exact ⟨[], (List.append_nil init).symm⟩
    | otherT => exact ⟨[], (List.append_nil init).symm⟩

end GoWmi
